import Mathlib

/-!
Verification of the ledger and settlement engine of a multi-account bet
tracker.  The engine consists of the sqlite-backed store `database.py`
(tables `accounts`, `matches`, `bets`, `bet_accounts`, `results`,
`settings`) and the form handlers of `stake.py` that drive it
(the betting-form submit handler, the Apply Win handler, the Apply Loss
handler, `calculate_bet_amount`, `update_account_balance`).

The store is embedded as an explicit state (`DB`) of row lists; each
SQL transaction becomes a pure function on `DB` that either returns the
updated state or an error together with the unchanged state (sqlite's
rollback).  Monetary amounts are rationals, timestamps natural numbers.
The streamlit session cache `st.session_state.account_data` is passed
explicitly as a list of account rows.  Storage faults (a commit that
fails) are injected through explicit boolean parameters where a stated
property quantifies over them.
-/

namespace StakeTracker

/-- Row of the `accounts` table.  Schema defaults: `balance 0.00`,
`created_at`/`updated_at CURRENT_TIMESTAMP`, `is_active 1`. -/
structure Account where
  account_id : Nat
  name : String
  balance : ℚ
  remarks : String
  created_at : Nat
  updated_at : Nat
  is_active : Bool
  deriving DecidableEq, Repr

/-- Row of the `matches` table. -/
structure MatchRow where
  match_id : Nat
  team1 : String
  team2 : String
  match_date : String
  match_time : String
  status : String
  deriving DecidableEq, Repr

/-- Row of the `bets` table; `status` is `"active"` or `"completed"`. -/
structure Bet where
  bet_id : Nat
  match_id : Nat
  team1_odds : ℚ
  team2_odds : ℚ
  betting_value : ℚ
  status : String
  deriving DecidableEq, Repr

/-- Row of the `bet_accounts` table (stake allocations); primary key
`(bet_id, account_id)`, `team_number ∈ {1, 2}`. -/
structure BetAccount where
  bet_id : Nat
  account_id : Nat
  team_number : Nat
  bet_amount : ℚ
  status : String
  deriving DecidableEq, Repr

/-- Row of the `results` table.  `winning_team` is nullable,
`cashout_details` a JSON list of `(account_id, amount)` pairs. -/
structure ResultRow where
  result_id : Nat
  bet_id : Nat
  winning_team : Option Nat
  result_type : String
  profit_amount : Option ℚ
  loss_amount : Option ℚ
  cashout_details : List (Nat × ℚ)
  deriving DecidableEq, Repr

/-- The singleton `settings` row. -/
structure Settings where
  min_transfer : ℚ
  default_betting_value : ℚ
  deriving DecidableEq, Repr

/-- The whole persistent store, with the `AUTOINCREMENT` counters of the
three surrogate-key tables made explicit. -/
structure DB where
  accounts : List Account
  matchRows : List MatchRow
  bets : List Bet
  bet_accounts : List BetAccount
  results : List ResultRow
  next_match_id : Nat
  next_bet_id : Nat
  next_result_id : Nat
  deriving DecidableEq, Repr

/-- Balance of account `i` in store `db`, when the account exists. -/
def balanceOf (db : DB) (i : Nat) : Option ℚ :=
  (db.accounts.find? (fun a => a.account_id == i)).map (fun a => a.balance)

/-- `calculate_bet_amount` from `stake.py` (lines 147-150):
`amount = betting_value / odds; return amount if show_accurate else
math.ceil(amount)`.  Python raises `ZeroDivisionError` when `odds` is
zero, modelled as `none`; there is no other validation in the function. -/
def calculate_bet_amount (betting_value odds : ℚ) (show_accurate : Bool) : Option ℚ :=
  if odds = 0 then none
  else
    let amount := betting_value / odds
    some (if show_accurate then amount else ((⌈amount⌉ : ℤ) : ℚ))

/-- Errors raised by sqlite inside a `Database` method's transaction;
the method's `except` clause rolls the transaction back and re-raises,
so the caller observes the error together with an unchanged store. -/
inductive SqlError
  | pkViolation
  | fkViolation
  deriving DecidableEq, Repr

/-- Exceptions observed by the `stake.py` handlers (all are caught by the
handler's `except` clause and shown with `st.error`). -/
inductive HandlerError
  | sql (e : SqlError)
  | accountMissing
  | insufficientBalance
  | saveFailed
  | betNotFound
  deriving DecidableEq, Repr

/-- `Database.save_account` (lines 153-172): `INSERT OR REPLACE INTO
accounts (account_id, name, balance, remarks, updated_at) VALUES (?, ?,
?, ?, CURRENT_TIMESTAMP)`.  `REPLACE` deletes any conflicting row and
inserts a fresh one, so the columns not supplied revert to their schema
defaults: `created_at = CURRENT_TIMESTAMP`, `is_active = 1`. -/
def save_account (db : DB) (accId : Nat) (name : String) (bal : ℚ)
    (remarks : String) (now : Nat) : DB :=
  { db with accounts :=
      db.accounts.filter (fun a => a.account_id != accId) ++
        [⟨accId, name, bal, remarks, now, now, true⟩] }

/-- `Database.get_accounts` (lines 141-151): `SELECT * FROM accounts
WHERE is_active = 1 ORDER BY account_id`.  Rows are kept in store order
here; the `ORDER BY` fixes only presentation order, on which no stated
property depends. -/
def get_accounts (db : DB) : List Account :=
  db.accounts.filter (fun a => a.is_active)

/-- `update_account_balance` from `stake.py` (lines 152-171): looks the
account up in the session cache, adjusts the cached balance (raising on
a subtraction that would overdraw), then persists the cached row through
`Database.save_account`.  `fault` injects a storage failure of that one
commit; the store is then unchanged (the cached row's in-place mutation
before the failed commit is not read again by any handler modelled
below, so it is dropped together with the error). -/
def update_account_balance (cache : List Account) (db : DB) (accId : Nat)
    (amount : ℚ) (operation : String) (fault : Bool) (now : Nat) :
    Except HandlerError (List Account × DB) :=
  match cache.find? (fun a => a.account_id == accId) with
  | none => .error .accountMissing
  | some row =>
      if operation = "add" then
        let newBal := row.balance + amount
        let cache1 := cache.map (fun a =>
          if a.account_id == accId then { a with balance := newBal } else a)
        if fault then .error .saveFailed
        else .ok (cache1, save_account db accId row.name newBal row.remarks now)
      else
        if row.balance < amount then .error .insufficientBalance
        else
          let newBal := row.balance - amount
          let cache1 := cache.map (fun a =>
            if a.account_id == accId then { a with balance := newBal } else a)
          if fault then .error .saveFailed
          else .ok (cache1, save_account db accId row.name newBal row.remarks now)

/-- Input dict assembled by the betting form's submit handler
(`bet_data`, `stake.py` lines 458-470). -/
structure BetData where
  match_id : Option Nat
  team1 : String
  team2 : String
  team1_odds : ℚ
  team2_odds : ℚ
  bet_amount1 : ℚ
  bet_amount2 : ℚ
  betting_value : ℚ
  match_date : String
  match_time : String
  team1_accounts : List Nat
  team2_accounts : List Nat
  deriving DecidableEq, Repr

/-- One `INSERT INTO bet_accounts` statement inside `create_bet`'s
transaction: enforces the `(bet_id, account_id)` primary key and the
`account_id` foreign key. -/
def insertBetAccount (db : DB) (row : BetAccount) : Except SqlError DB :=
  if db.bet_accounts.any (fun r => r.bet_id == row.bet_id && r.account_id == row.account_id) then
    .error .pkViolation
  else if db.accounts.all (fun a => a.account_id != row.account_id) then
    .error .fkViolation
  else .ok { db with bet_accounts := db.bet_accounts ++ [row] }

/-- One of `create_bet`'s two allocation-insert loops. -/
def insertAllocations (betId : Nat) (accs : List Nat) (team : Nat) (amt : ℚ)
    (db : DB) : Except SqlError DB :=
  accs.foldlM (fun d a => insertBetAccount d ⟨betId, a, team, amt, "active"⟩) db

/-- `Database.create_bet` (lines 196-242): one transaction that creates
the match when no `match_id` is supplied, inserts the bet row (status
defaulting to `active`), and inserts one `bet_accounts` row per selected
account per team.  Any error rolls the whole transaction back, which the
`Except` encodes: on `error` the caller's store is unchanged.  The
`match_id` foreign key of the bet row is checked where the supplied id
is resolved. -/
def create_bet (db : DB) (bd : BetData) : Except SqlError (DB × Nat) :=
  match
    (match bd.match_id with
     | some m =>
         if db.matchRows.any (fun r => r.match_id == m) then Except.ok (db, m)
         else Except.error SqlError.fkViolation
     | none =>
         let mid := db.next_match_id
         Except.ok ({ db with
                        matchRows := db.matchRows ++
                          [(⟨mid, bd.team1, bd.team2, bd.match_date, bd.match_time,
                             "upcoming"⟩ : MatchRow)],
                        next_match_id := mid + 1 }, mid)) with
  | .error e => .error e
  | .ok (db1, matchId) =>
      let betId := db1.next_bet_id
      let db2 := { db1 with
                     bets := db1.bets ++
                       [(⟨betId, matchId, bd.team1_odds, bd.team2_odds, bd.betting_value,
                          "active"⟩ : Bet)],
                     next_bet_id := betId + 1 }
      match insertAllocations betId bd.team1_accounts 1 bd.bet_amount1 db2 with
      | .error e => .error e
      | .ok db3 =>
          match insertAllocations betId bd.team2_accounts 2 bd.bet_amount2 db3 with
          | .error e => .error e
          | .ok db4 => .ok (db4, betId)

/-- Argument dict of `Database.save_result` as assembled by the three
settlement handlers. -/
structure ResultData where
  bet_id : Nat
  winning_team : Option Nat
  result_type : String
  profit_amount : Option ℚ
  loss_amount : Option ℚ
  cashout_details : List (Nat × ℚ)
  winning_accounts : List (Nat × ℚ)
  deriving DecidableEq, Repr

/-- `Database.save_result` (lines 314-354): one transaction that sets the
bet's status to `completed` (an unconditional `UPDATE` — there is no
check of the current status), inserts a new `results` row (with whatever
`profit_amount` / `loss_amount` the caller supplied, `NULL` when
absent), and, for a `win` result only, adds each entry of
`winning_accounts` to its account's balance.  The `results` insert must
resolve its `bet_id` foreign key. -/
def save_result (db : DB) (rd : ResultData) : Except SqlError DB :=
  let bets1 := db.bets.map (fun b =>
    if b.bet_id == rd.bet_id then { b with status := "completed" } else b)
  if db.bets.all (fun b => b.bet_id != rd.bet_id) then .error .fkViolation
  else
    let row : ResultRow := ⟨db.next_result_id, rd.bet_id, rd.winning_team, rd.result_type,
                            rd.profit_amount, rd.loss_amount, rd.cashout_details⟩
    let accounts1 :=
      if rd.result_type = "win" then
        rd.winning_accounts.foldl (fun acs p =>
          acs.map (fun a =>
            if a.account_id == p.1 then { a with balance := a.balance + p.2 } else a)) db.accounts
      else db.accounts
    .ok { db with bets := bets1, results := db.results ++ [row],
                  accounts := accounts1, next_result_id := db.next_result_id + 1 }

/-- A storage-level failure of a read query. -/
inductive StorageFault
  | ioFailure
  deriving DecidableEq, Repr

/-- `Database.get_settings` (lines 356-369): the underlying `SELECT` is
modelled by its outcome `q`; on any exception the method logs and
returns the hard-coded default dict instead of re-raising. -/
def get_settings (q : Except StorageFault Settings) : Settings :=
  match q with
  | .ok s => s
  | .error _ => ⟨250, 2100⟩

/-- `Database.get_bet_history` (lines 442-490): the underlying joined
query is modelled by its outcome `q`; on any exception the method logs
and returns an empty frame instead of re-raising. -/
def get_bet_history {α : Type} (q : Except StorageFault (List α)) : List α :=
  match q with
  | .ok h => h
  | .error _ => []

/-- One row of the account list returned by `Database.get_bet_details`
(join of `bet_accounts` with `accounts`). -/
structure BetAccountDetail where
  team_number : Nat
  bet_amount : ℚ
  account_id : Nat
  name : String
  balance : ℚ
  deriving DecidableEq, Repr

/-- Account part of `Database.get_bet_details` (lines 268-312): inner
join of the bet's allocations with their accounts.  The source's
`ORDER BY ba.team_number, a.account_id` fixes only iteration order;
store order is kept here. -/
def get_bet_details_accounts (db : DB) (betId : Nat) : List BetAccountDetail :=
  (db.bet_accounts.filter (fun ba => ba.bet_id == betId)).filterMap (fun ba =>
    (db.accounts.find? (fun a => a.account_id == ba.account_id)).map (fun a =>
      ⟨ba.team_number, ba.bet_amount, a.account_id, a.name, a.balance⟩))

/-- `Database.get_bet_details` raises `ValueError` when the bet row is
absent; otherwise it returns the bet's joined account rows (the bet's
own columns are carried by the caller's `ActiveBetRow`). -/
def get_bet_details (db : DB) (betId : Nat) : Except HandlerError (List BetAccountDetail) :=
  if db.bets.all (fun b => b.bet_id != betId) then .error .betNotFound
  else .ok (get_bet_details_accounts db betId)

/-- Balance-validation loop of the submit handler (`stake.py` lines
436-449) for one team's selection: each selected account is looked up in
the session cache (`.iloc[0]` raises when the account is absent) and
every account whose balance is below the team's bet amount is collected
as a `(account_id, required, team)` shortfall.  The loop never stops at
the first shortfall. -/
def collectShortfalls (cache : List Account) (accs : List Nat) (amt : ℚ)
    (team : Nat) : Except HandlerError (List (Nat × ℚ × Nat)) :=
  accs.foldlM (fun l a =>
    match cache.find? (fun r => r.account_id == a) with
    | none => Except.error HandlerError.accountMissing
    | some row => Except.ok (if row.balance < amt then l ++ [(a, amt, team)] else l)) []

/-- The submit handler's post-creation debit loop (`stake.py` lines
476-480): one `update_account_balance ... 'subtract'` call — hence one
separate `save_account` commit — per account.  The loop stops at the
first failure; commits already made stay applied. -/
def debitAccounts (cache : List Account) (db : DB) (accs : List Nat) (amt : ℚ)
    (fault : Nat → Bool) (now : Nat) : List Account × DB × Option HandlerError :=
  match accs with
  | [] => (cache, db, none)
  | a :: rest =>
      match update_account_balance cache db a amt "subtract" (fault a) now with
      | .error e => (cache, db, some e)
      | .ok (c1, d1) => debitAccounts c1 d1 rest amt fault now

/-- Outcome shown by the betting form's submit handler. -/
inductive SubmitMsg
  | errorBothTeams
  | errorTeam1
  | errorTeam2
  | errorUnequal (n1 n2 : Nat)
  | errorInsufficient (shortfalls : List (Nat × ℚ × Nat))
  | errorPlacingBet (e : HandlerError)
  | success (betId : Nat)
  deriving DecidableEq, Repr

/-- The betting form's submit handler (`stake.py` lines 423-509):
selection checks, balance validation against the session cache, then
`Database.create_bet` (one atomic transaction) followed by the
per-account debit commits, and finally a cache refresh from the store.
`fault` injects storage failures of individual debit commits. -/
def betting_submit (cache : List Account) (db : DB) (bd : BetData)
    (fault : Nat → Bool) (now : Nat) : SubmitMsg × List Account × DB :=
  if bd.team1_accounts.isEmpty && bd.team2_accounts.isEmpty then (.errorBothTeams, cache, db)
  else if bd.team1_accounts.isEmpty then (.errorTeam1, cache, db)
  else if bd.team2_accounts.isEmpty then (.errorTeam2, cache, db)
  else if bd.team1_accounts.length != bd.team2_accounts.length then
    (.errorUnequal bd.team1_accounts.length bd.team2_accounts.length, cache, db)
  else
    match collectShortfalls cache bd.team1_accounts bd.bet_amount1 1 with
    | .error e => (.errorPlacingBet e, cache, db)
    | .ok s1 =>
      match collectShortfalls cache bd.team2_accounts bd.bet_amount2 2 with
      | .error e => (.errorPlacingBet e, cache, db)
      | .ok s2 =>
        let shortfalls := s1 ++ s2
        if !shortfalls.isEmpty then (.errorInsufficient shortfalls, cache, db)
        else
          match create_bet db bd with
          | .error e => (.errorPlacingBet (.sql e), cache, db)
          | .ok (db1, betId) =>
            match debitAccounts cache db1 bd.team1_accounts bd.bet_amount1 fault now with
            | (c1, d1, some e) => (.errorPlacingBet e, c1, d1)
            | (c1, d1, none) =>
              match debitAccounts c1 d1 bd.team2_accounts bd.bet_amount2 fault now with
              | (c2, d2, some e) => (.errorPlacingBet e, c2, d2)
              | (_, d2, none) => (.success betId, get_accounts d2, d2)

/-- Row of the cached active-bets frame the settlement handlers iterate
over (`Database.get_active_bets` joined with `matches`). -/
structure ActiveBetRow where
  bet_id : Nat
  team1 : String
  team2 : String
  team1_odds : ℚ
  team2_odds : ℚ
  betting_value : ℚ
  deriving DecidableEq, Repr

/-- Credit loop of the Apply Win handler (`stake.py` lines 565-583):
every allocation on the winning side gets `profit = bet_amount * odds`
added to its account through `update_account_balance` (one separate
`save_account` commit each) and is recorded in `winning_accounts`.  The
only possible failure is a missing cache row. -/
def creditWinners (details : List BetAccountDetail) (side : Nat) (odds : ℚ)
    (cache : List Account) (db : DB) (now : Nat) :
    Except HandlerError (List Account × DB × List (Nat × ℚ)) :=
  match details with
  | [] => .ok (cache, db, [])
  | d :: rest =>
      if d.team_number == side then
        let profit := d.bet_amount * odds
        match update_account_balance cache db d.account_id profit "add" false now with
        | .error e => .error e
        | .ok (c1, d1) =>
            match creditWinners rest side odds c1 d1 now with
            | .error e => .error e
            | .ok (c2, d2, ws) => .ok (c2, d2, (d.account_id, profit) :: ws)
      else creditWinners rest side odds cache db now

/-- The Apply Win handler (`stake.py` lines 559-600): fetch the bet's
allocations, credit every winning-side account by `bet_amount * odds`,
then call `save_result` with `result_type = 'win'` and the collected
`winning_accounts` list — and with no `profit_amount` entry, so the
result row stores `NULL` profit.  The handler finishes by refreshing the
account cache from the store. -/
def apply_win (cache : List Account) (db : DB) (bet : ActiveBetRow)
    (winning_team : String) (now : Nat) :
    Except HandlerError (List Account × DB) := do
  let details ← get_bet_details db bet.bet_id
  let side := if winning_team = bet.team1 then 1 else 2
  let odds := if winning_team = bet.team1 then bet.team1_odds else bet.team2_odds
  let (c1, d1, winning_accounts) ← creditWinners details side odds cache db now
  match save_result d1 ⟨bet.bet_id, some side, "win", none, none, [], winning_accounts⟩ with
  | .error e => .error (.sql e)
  | .ok d2 => pure (get_accounts d2, d2)

/-- The Apply Loss handler (`stake.py` lines 602-618): a single
`save_result` call with `result_type = 'loss'`, `winning_team = 0`, no
profit or loss amount, and no balance updates. -/
def apply_loss (db : DB) (betId : Nat) : Except SqlError DB :=
  save_result db ⟨betId, some 0, "loss", none, none, [], []⟩

/-- The shortfall test the submit handler's validation loop applies to
one selected account: the account's cached balance is below the team's
bet amount. -/
def isShort (cache : List Account) (a : Nat) (amt : ℚ) : Bool :=
  match cache.find? (fun r => r.account_id == a) with
  | none => false
  | some r => decide (r.balance < amt)

/-- The `(bet_id, account_id)` primary-key test of `insertBetAccount`. -/
def hasAlloc (db : DB) (betId a : Nat) : Bool :=
  db.bet_accounts.any (fun r => r.bet_id == betId && r.account_id == a)

/-- Submit-handler outcomes produced before `create_bet`'s transaction
commits (validation errors and errors raised inside the transaction
itself). -/
def preCommitMsg : SubmitMsg → Prop
  | .errorBothTeams => True
  | .errorTeam1 => True
  | .errorTeam2 => True
  | .errorUnequal _ _ => True
  | .errorInsufficient _ => True
  | .errorPlacingBet (.sql _) => True
  | _ => False

/- Concrete states used to exercise the handlers. -/

/-- A fresh account with a 2000 balance. -/
def accTwo1 : Account := ⟨1, "Account 1", 2000, "", 0, 0, true⟩

/-- A second fresh account with a 2000 balance. -/
def accTwo2 : Account := ⟨2, "Account 2", 2000, "", 0, 0, true⟩

/-- A store holding exactly the two fresh accounts and nothing else. -/
def dbTwo : DB := ⟨[accTwo1, accTwo2], [], [], [], [], 1, 1, 1⟩

/-- The session cache matching `dbTwo`. -/
def cacheTwo : List Account := [accTwo1, accTwo2]

/-- A store with one account and one already-settled bet: bet 1 is
`completed` and owns one `loss` result row. -/
def dbDone : DB :=
  ⟨[⟨1, "Account 1", 100, "", 0, 0, true⟩],
   [⟨1, "A", "B", "2025-05-01", "3:30 PM", "upcoming"⟩],
   [⟨1, 1, 2, 3, 2100, "completed"⟩],
   [⟨1, 1, 1, 1050, "active"⟩],
   [⟨1, 1, some 0, "loss", none, none, []⟩],
   2, 2, 2⟩

/-- A store with one active bet: account 1 (balance 0 after its debit)
staked 1050 on side 1 at odds 2, account 2 (balance 500) staked 700 on
side 2 at odds 3. -/
def dbWin : DB :=
  ⟨[⟨1, "Account 1", 0, "", 0, 0, true⟩, ⟨2, "Account 2", 500, "", 0, 0, true⟩],
   [⟨1, "A", "B", "2025-05-01", "3:30 PM", "upcoming"⟩],
   [⟨1, 1, 2, 3, 2100, "active"⟩],
   [⟨1, 1, 1, 1050, "active"⟩, ⟨1, 2, 2, 700, "active"⟩],
   [],
   2, 2, 1⟩

/-- The cached active-bets row for `dbWin`'s bet 1. -/
def betRowWin : ActiveBetRow := ⟨1, "A", "B", 2, 3, 2100⟩

/-- A bet request over `dbTwo`: account 1 on team 1, account 2 on
team 2, 1050 per side. -/
def bdTwo : BetData :=
  ⟨none, "A", "B", 2, 2, 1050, 1050, 2100, "2025-05-01", "3:30 PM", [1], [2]⟩

/-- The same request with account 1 selected on both sides. -/
def bdDup : BetData :=
  ⟨none, "A", "B", 2, 2, 1050, 1050, 2100, "2025-05-01", "3:30 PM", [1], [1]⟩

/-- The same request with no account selected on either side. -/
def bdEmpty : BetData :=
  ⟨none, "A", "B", 2, 2, 1050, 1050, 2100, "2025-05-01", "3:30 PM", [], []⟩

end StakeTracker

namespace StakeTracker

/-- C4: for positive total value and positive odds, `calculate_bet_amount`
returns the exact quotient when `show_accurate` is true and its ceiling
when false; in particular 2100/2.0 ↦ 1050, 2100/3.0 ↦ 700, and
1000/3.0 exact is within 0.01 of 333.33.  The function is a pure Lean
`def`, hence deterministic and side-effect free. -/
theorem C4_calculate_bet_amount_spec (v odds : ℚ) (hv : 0 < v) (ho : 0 < odds) :
    calculate_bet_amount v odds true = some (v / odds) ∧
    calculate_bet_amount v odds false = some ((⌈v / odds⌉ : ℤ) : ℚ) ∧
    calculate_bet_amount 2100 2 false = some 1050 ∧
    calculate_bet_amount 2100 3 false = some 700 ∧
    ∀ x : ℚ, calculate_bet_amount 1000 3 true = some x → |x - 333.33| < 1/100 := by
  have hne : odds ≠ 0 := ne_of_gt ho
  refine ⟨?_, ?_, ?_, ?_, ?_⟩
  · simp [calculate_bet_amount, hne]
  · simp [calculate_bet_amount, hne]
  · norm_num [calculate_bet_amount]
  · norm_num [calculate_bet_amount]
  · intro x hx
    norm_num [calculate_bet_amount] at hx
    rw [← hx, abs_sub_lt_iff]
    norm_num

/-- Witness for C4 at `v = 2100`, `odds = 2`. -/
theorem C4_witness :
    calculate_bet_amount 2100 2 true = some (2100 / 2) ∧
    calculate_bet_amount 2100 2 false = some ((⌈(2100 : ℚ) / 2⌉ : ℤ) : ℚ) := by
  have h := C4_calculate_bet_amount_spec 2100 2 (by norm_num) (by norm_num)
  exact ⟨h.1, h.2.1⟩

/-- C8 counterexample: `calculate_bet_amount` does not fail on
non-positive inputs — with `odds = -1` it returns `-100`, and with
`totalValue = -100` it returns `-50`, in both cases a value rather than
any `InvalidInput` failure. -/
theorem C8_counterexample :
    calculate_bet_amount 100 (-1) false = some (-100) ∧
    calculate_bet_amount (-100) 2 true = some (-50) := by
  constructor
  · norm_num [calculate_bet_amount]
    rw [show ((-100 : ℚ)) = ((-100 : ℤ) : ℚ) by norm_num, Int.ceil_intCast]
  · norm_num [calculate_bet_amount]

/-- C8 amended: `calculate_bet_amount` performs no input validation.
Its only failure is the `ZeroDivisionError` at `odds = 0`; for every
other input — including negative odds and non-positive total values —
it returns the computed quotient or its ceiling without error. -/
theorem C8_amended (v odds : ℚ) (e : Bool) :
    (odds = 0 → calculate_bet_amount v odds e = none) ∧
    (odds ≠ 0 → (calculate_bet_amount v odds e).isSome = true) := by
  constructor <;> intro h <;> simp [calculate_bet_amount, h]

/-- Witness for C8 amended at `odds = 0` and at `odds = 2`. -/
theorem C8_amended_witness :
    calculate_bet_amount 5 0 false = none ∧
    (calculate_bet_amount 5 2 false).isSome = true :=
  ⟨(C8_amended 5 0 false).1 rfl, (C8_amended 5 2 false).2 (by norm_num)⟩

/-- C9 counterexample: a failing settings read returns the hard-coded
default settings and a failing history read returns an empty history —
both failures are swallowed, not surfaced. -/
theorem C9_counterexample :
    get_settings (.error .ioFailure) = ⟨250, 2100⟩ ∧
    @get_bet_history ResultRow (.error .ioFailure) = [] :=
  ⟨rfl, rfl⟩

/-- C9 amended: `get_settings` and `get_bet_history` swallow every
storage failure, returning the default settings record and the empty
history respectively; only successful reads are passed through. -/
theorem C9_amended :
    (∀ e, get_settings (.error e) = ⟨250, 2100⟩) ∧
    (∀ s, get_settings (.ok s) = s) ∧
    (∀ e, @get_bet_history ResultRow (.error e) = []) ∧
    (∀ h : List ResultRow, get_bet_history (.ok h) = h) :=
  ⟨fun _ => rfl, fun _ => rfl, fun _ => rfl, fun _ => rfl⟩

/-- Helper: the row written by `save_account` always carries the schema
defaults `is_active = 1` and `created_at = CURRENT_TIMESTAMP`. -/
theorem save_account_row_defaults (db : DB) (accId : Nat) (name rem : String)
    (bal : ℚ) (now : Nat) :
    ∀ a ∈ (save_account db accId name bal rem now).accounts,
      a.account_id = accId → a.is_active = true ∧ a.created_at = now := by
  intro a ha hid
  simp only [save_account, List.mem_append, List.mem_filter, List.mem_singleton] at ha
  rcases ha with ⟨_, hne⟩ | rfl
  · exact absurd hid (by simpa using hne)
  · exact ⟨rfl, rfl⟩

/-- C10: `save_account` replaces the whole `accounts` row, so saving an
existing account resets the columns it does not supply to their schema
defaults — `is_active` back to 1 and `created_at` to the current
timestamp — and every balance mutation made through
`update_account_balance` (hence every debit and credit) does the same. -/
theorem C10_save_account_resets_defaults (db : DB) (accId : Nat)
    (name rem : String) (bal : ℚ) (now : Nat)
    (hex : ∃ a ∈ db.accounts, a.account_id = accId) :
    (∀ a ∈ (save_account db accId name bal rem now).accounts,
        a.account_id = accId → a.is_active = true ∧ a.created_at = now) ∧
    (∀ cache amount operation fault c' d',
        update_account_balance cache db accId amount operation fault now = .ok (c', d') →
        ∀ a ∈ d'.accounts, a.account_id = accId →
          a.is_active = true ∧ a.created_at = now) := by
  refine ⟨save_account_row_defaults db accId name rem bal now, ?_⟩
  intro cache amount operation fault c' d' h
  unfold update_account_balance at h
  split at h
  · exact absurd h (by simp)
  · split at h
    · split at h
      · exact absurd h (by simp)
      · rw [Except.ok.injEq, Prod.mk.injEq] at h
        rw [← h.2]
        exact save_account_row_defaults db accId _ _ _ now
    · split at h
      · exact absurd h (by simp)
      · split at h
        · exact absurd h (by simp)
        · rw [Except.ok.injEq, Prod.mk.injEq] at h
          rw [← h.2]
          exact save_account_row_defaults db accId _ _ _ now

/-- Helper: when the bet exists, `save_result` succeeds and its effect
on the store is exactly the status update, the appended result row and,
for a win, the `winning_accounts` credits. -/
theorem save_result_ok (db : DB) (rd : ResultData)
    (hbet : ∃ b ∈ db.bets, b.bet_id = rd.bet_id) :
    save_result db rd = .ok
      ⟨(if rd.result_type = "win" then
          rd.winning_accounts.foldl (fun acs p =>
            acs.map (fun a =>
              if a.account_id == p.1 then { a with balance := a.balance + p.2 } else a)) db.accounts
        else db.accounts),
       db.matchRows,
       db.bets.map (fun b =>
         if b.bet_id == rd.bet_id then { b with status := "completed" } else b),
       db.bet_accounts,
       db.results ++ [⟨db.next_result_id, rd.bet_id, rd.winning_team, rd.result_type,
                       rd.profit_amount, rd.loss_amount, rd.cashout_details⟩],
       db.next_match_id, db.next_bet_id, db.next_result_id + 1⟩ := by
  obtain ⟨b, hb, hid⟩ := hbet
  have hcond : ¬(db.bets.all (fun x => x.bet_id != rd.bet_id) = true) := by
    intro hall
    rw [List.all_eq_true] at hall
    exact absurd hid (by simpa using hall b hb)
  simp only [save_result]
  rw [if_neg hcond]

/-- Helper: the completed-status update of `save_result` marks every bet
row carrying the settled id. -/
theorem completed_update_status (bets : List Bet) (betId : Nat) :
    ∀ b ∈ bets.map (fun b =>
        if b.bet_id == betId then { b with status := "completed" } else b),
      b.bet_id = betId → b.status = "completed" := by
  intro b' hb' hid'
  rw [List.mem_map] at hb'
  obtain ⟨b0, hb0, heq⟩ := hb'
  by_cases h : b0.bet_id = betId
  · rw [← heq]
    simp [h]
  · rw [← heq] at hid'
    simp only [beq_iff_eq, h, if_false] at hid'

/-- C2, evaluated at the failing input: on `dbWin` — account 1 staked
1050 on side 1 at odds 2 (balance 0 after its debit), account 2 staked
700 on side 2 (balance 500) — applying a win for side 1 credits
account 1 by 4200, twice the claimed 1050 × 2 = 2100: once in the
handler's credit loop and a second time by `save_result`'s own
`UPDATE accounts` pass over `winning_accounts`.  The stored Result row
records no `profit_amount` at all (the handler never passes one), not
the total credited.  Only the losing account keeps its balance. -/
theorem C2_win_double_credit_eval :
    (apply_win (get_accounts dbWin) dbWin betRowWin "A" 7).toOption.map
        (fun p => (balanceOf p.2 1, balanceOf p.2 2,
                   p.2.results.map (fun r =>
                     (r.bet_id, r.winning_team, r.result_type, r.profit_amount)),
                   p.2.bets.map (fun b => b.status))) =
      some (some 4200, some 500, [(1, some 1, "win", (none : Option ℚ))], ["completed"]) := by
  norm_num [apply_win, get_bet_details, get_bet_details_accounts, creditWinners,
    update_account_balance, save_account, get_accounts, save_result, dbWin, betRowWin,
    balanceOf, bind, Except.bind, pure, Except.pure, List.find?, List.filter, List.filterMap,
    List.foldl, Except.toOption, Option.map]
  decide

/-- C3 counterexample: settling bet 1 of `dbDone` a second time — the
bet is already `completed` and owns a stored result — does not fail
with any `BetAlreadySettled` error: `apply_loss` succeeds and the store
then holds two Result rows for the bet. -/
theorem C3_counterexample :
    (apply_loss dbDone 1).toOption.map
        (fun d => (d.results.length, d.bets.map (fun b => b.status))) =
      some (2, ["completed"]) := by decide

/-- C3 amended: `save_result` performs no status check, so a settlement
of any existing bet — already settled or not — succeeds: the bet's
status is (re)set to `completed`, one more Result row is appended, and
(for a loss) balances are untouched.  No `BetAlreadySettled` error
exists; only the UI's restriction to listing active bets prevents a
second settlement. -/
theorem C3_amended_no_settled_check (db : DB) (betId : Nat)
    (hbet : ∃ b ∈ db.bets, b.bet_id = betId) :
    ∃ d', apply_loss db betId = .ok d' ∧
      d'.results.length = db.results.length + 1 ∧
      (∀ b ∈ d'.bets, b.bet_id = betId → b.status = "completed") ∧
      d'.accounts = db.accounts := by
  refine ⟨_, save_result_ok db ⟨betId, some 0, "loss", none, none, [], []⟩ hbet, ?_, ?_, ?_⟩
  · simp
  · exact completed_update_status db.bets betId
  · simp

/-- Witness for C3 amended: re-settling the completed bet 1 of
`dbDone`. -/
theorem C3_amended_witness :
    ∃ d', apply_loss dbDone 1 = .ok d' ∧
      d'.results.length = dbDone.results.length + 1 ∧
      (∀ b ∈ d'.bets, b.bet_id = 1 → b.status = "completed") ∧
      d'.accounts = dbDone.accounts :=
  C3_amended_no_settled_check dbDone 1 ⟨⟨1, 1, 2, 3, 2100, "completed"⟩, by decide, rfl⟩

/-- C7: `apply_loss` on an active, unsettled bet succeeds, leaves every
account row (hence every balance) unchanged, stores exactly one Result
row for the bet — with `result_type = loss`, sentinel winning team 0 and
no profit or loss amount — and marks the bet `completed`. -/
theorem C7_apply_loss_frame (db : DB) (betId : Nat)
    (hbet : ∃ b ∈ db.bets, b.bet_id = betId ∧ b.status = "active")
    (hnores : ∀ r ∈ db.results, r.bet_id ≠ betId) :
    ∃ d', apply_loss db betId = .ok d' ∧
      d'.accounts = db.accounts ∧
      d'.results.filter (fun r => r.bet_id == betId) =
        [⟨db.next_result_id, betId, some 0, "loss", none, none, []⟩] ∧
      (∀ b ∈ d'.bets, b.bet_id = betId → b.status = "completed") := by
  obtain ⟨b, hb, hid, _⟩ := hbet
  refine ⟨_, save_result_ok db ⟨betId, some 0, "loss", none, none, [], []⟩ ⟨b, hb, hid⟩,
          ?_, ?_, ?_⟩
  · simp
  · show (db.results ++ _).filter (fun r => r.bet_id == betId) = _
    rw [List.filter_append, List.filter_eq_nil_iff.mpr, List.nil_append]
    · simp
    · intro r hr
      simpa using hnores r hr
  · exact completed_update_status db.bets betId

/-- Witness for C7: applying a loss to the active bet 1 of `dbWin`. -/
theorem C7_witness :
    ∃ d', apply_loss dbWin 1 = .ok d' ∧
      d'.accounts = dbWin.accounts ∧
      d'.results.filter (fun r => r.bet_id == 1) =
        [⟨dbWin.next_result_id, 1, some 0, "loss", none, none, []⟩] ∧
      (∀ b ∈ d'.bets, b.bet_id = 1 → b.status = "completed") :=
  C7_apply_loss_frame dbWin 1 ⟨⟨1, 1, 2, 3, 2100, "active"⟩, by decide, rfl, rfl⟩
    (by decide)

/-- Helper: the validation loop with an arbitrary accumulator.  When
every selected account is present in the cache, the loop succeeds and
appends exactly the short accounts, in selection order. -/
theorem collectShortfalls_go (cache : List Account) (amt : ℚ) (team : Nat) :
    ∀ (accs : List Nat) (init : List (Nat × ℚ × Nat)),
      (∀ a ∈ accs, (cache.find? (fun r => r.account_id == a)).isSome = true) →
      accs.foldlM (fun l a =>
          match cache.find? (fun r => r.account_id == a) with
          | none => Except.error HandlerError.accountMissing
          | some row => Except.ok (if row.balance < amt then l ++ [(a, amt, team)] else l)) init
        = .ok (init ++ (accs.filter (fun a => isShort cache a amt)).map
                 (fun a => (a, amt, team))) := by
  intro accs
  induction accs with
  | nil =>
      intro init _
      simp only [List.foldlM, List.filter_nil, List.map_nil, List.append_nil]
      rfl
  | cons a rest ih =>
      intro init hpres
      obtain ⟨row, hrow⟩ := Option.isSome_iff_exists.mp
        (hpres a (List.mem_cons_self a rest))
      have hrest : ∀ x ∈ rest, (cache.find? (fun r => r.account_id == x)).isSome = true :=
        fun x hx => hpres x (List.mem_cons_of_mem a hx)
      rw [List.foldlM_cons, hrow, List.filter_cons]
      show List.foldlM _ (if row.balance < amt then init ++ [(a, amt, team)] else init) rest = _
      by_cases hb : row.balance < amt
      · have hsh : isShort cache a amt = true := by
          rw [isShort, hrow]
          exact decide_eq_true hb
        rw [if_pos hb, ih _ hrest]
        simp [hsh]
      · have hsh : isShort cache a amt = false := by
          rw [isShort, hrow]
          exact decide_eq_false hb
        rw [if_neg hb, ih _ hrest]
        simp [hsh]

/-- Helper: `collectShortfalls` on a fully present selection returns
exactly the short accounts. -/
theorem collectShortfalls_ok (cache : List Account) (accs : List Nat) (amt : ℚ)
    (team : Nat)
    (hpres : ∀ a ∈ accs, (cache.find? (fun r => r.account_id == a)).isSome = true) :
    collectShortfalls cache accs amt team =
      .ok ((accs.filter (fun a => isShort cache a amt)).map (fun a => (a, amt, team))) := by
  rw [collectShortfalls, collectShortfalls_go cache amt team accs [] hpres]
  simp

/-- C5: a CreateBet submission whose selections pass the structural
checks but in which some selected account's cached balance is below its
side's bet amount is rejected with the insufficient-balance message, the
store and cache are left untouched, and the reported list contains every
shortfall account of both teams — an account of either team appears in
it exactly when its balance is short — not only the first one found. -/
theorem C5_insufficient_lists_all_shortfalls
    (cache : List Account) (db : DB) (bd : BetData) (fault : Nat → Bool) (now : Nat)
    (h1 : bd.team1_accounts ≠ []) (h2 : bd.team2_accounts ≠ [])
    (hlen : bd.team1_accounts.length = bd.team2_accounts.length)
    (hpres : ∀ a ∈ bd.team1_accounts ++ bd.team2_accounts,
        (cache.find? (fun r => r.account_id == a)).isSome = true)
    (hshort : (∃ a ∈ bd.team1_accounts, isShort cache a bd.bet_amount1 = true) ∨
              (∃ a ∈ bd.team2_accounts, isShort cache a bd.bet_amount2 = true)) :
    ∃ s, betting_submit cache db bd fault now = (.errorInsufficient s, cache, db) ∧
      (∀ a ∈ bd.team1_accounts,
        ((a, bd.bet_amount1, 1) ∈ s ↔ isShort cache a bd.bet_amount1 = true)) ∧
      (∀ a ∈ bd.team2_accounts,
        ((a, bd.bet_amount2, 2) ∈ s ↔ isShort cache a bd.bet_amount2 = true)) := by
  have hp1 : ∀ a ∈ bd.team1_accounts,
      (cache.find? (fun r => r.account_id == a)).isSome = true :=
    fun a ha => hpres a (List.mem_append_left _ ha)
  have hp2 : ∀ a ∈ bd.team2_accounts,
      (cache.find? (fun r => r.account_id == a)).isSome = true :=
    fun a ha => hpres a (List.mem_append_right _ ha)
  have he1 : bd.team1_accounts.isEmpty = false := by simp [h1]
  have he2 : bd.team2_accounts.isEmpty = false := by simp [h2]
  have hbne : (bd.team1_accounts.length != bd.team2_accounts.length) = false := by
    simp [hlen]
  have hs : ∃ x, x ∈ (bd.team1_accounts.filter (fun a => isShort cache a bd.bet_amount1)).map
        (fun a => (a, bd.bet_amount1, 1)) ++
      (bd.team2_accounts.filter (fun a => isShort cache a bd.bet_amount2)).map
        (fun a => (a, bd.bet_amount2, 2)) := by
    rcases hshort with ⟨a, ha, hsh⟩ | ⟨a, ha, hsh⟩
    · exact ⟨(a, bd.bet_amount1, 1), List.mem_append_left _
        (List.mem_map_of_mem _ (List.mem_filter.mpr ⟨ha, hsh⟩))⟩
    · exact ⟨(a, bd.bet_amount2, 2), List.mem_append_right _
        (List.mem_map_of_mem _ (List.mem_filter.mpr ⟨ha, hsh⟩))⟩
  obtain ⟨x, hx⟩ := hs
  have hne : ((bd.team1_accounts.filter (fun a => isShort cache a bd.bet_amount1)).map
        (fun a => (a, bd.bet_amount1, 1)) ++
      (bd.team2_accounts.filter (fun a => isShort cache a bd.bet_amount2)).map
        (fun a => (a, bd.bet_amount2, 2))).isEmpty = false := by
    cases hl : (bd.team1_accounts.filter (fun a => isShort cache a bd.bet_amount1)).map
        (fun a => (a, bd.bet_amount1, 1)) ++
      (bd.team2_accounts.filter (fun a => isShort cache a bd.bet_amount2)).map
        (fun a => (a, bd.bet_amount2, 2)) with
    | nil => rw [hl] at hx; cases hx
    | cons y ys => rfl
  refine ⟨(bd.team1_accounts.filter (fun a => isShort cache a bd.bet_amount1)).map
            (fun a => (a, bd.bet_amount1, 1)) ++
          (bd.team2_accounts.filter (fun a => isShort cache a bd.bet_amount2)).map
            (fun a => (a, bd.bet_amount2, 2)), ?_, ?_, ?_⟩
  · unfold betting_submit
    rw [he1, he2, hbne,
        collectShortfalls_ok cache bd.team1_accounts bd.bet_amount1 1 hp1,
        collectShortfalls_ok cache bd.team2_accounts bd.bet_amount2 2 hp2]
    simp [hne]
  · intro a ha
    constructor
    · intro hmem
      rcases List.mem_append.mp hmem with hm | hm
      · obtain ⟨a0, ha0, heq⟩ := List.mem_map.mp hm
        have ha0a : a0 = a := congrArg Prod.fst heq
        rw [← ha0a]
        exact (List.mem_filter.mp ha0).2
      · obtain ⟨a0, ha0, heq⟩ := List.mem_map.mp hm
        have h21 : (2 : Nat) = 1 := congrArg (fun p => p.2.2) heq
        exact absurd h21 (by decide)
    · intro hsh
      exact List.mem_append_left _ (List.mem_map_of_mem _ (List.mem_filter.mpr ⟨ha, hsh⟩))
  · intro a ha
    constructor
    · intro hmem
      rcases List.mem_append.mp hmem with hm | hm
      · obtain ⟨a0, ha0, heq⟩ := List.mem_map.mp hm
        have h12 : (1 : Nat) = 2 := congrArg (fun p => p.2.2) heq
        exact absurd h12 (by decide)
      · obtain ⟨a0, ha0, heq⟩ := List.mem_map.mp hm
        have ha0a : a0 = a := congrArg Prod.fst heq
        rw [← ha0a]
        exact (List.mem_filter.mp ha0).2
    · intro hsh
      exact List.mem_append_right _ (List.mem_map_of_mem _ (List.mem_filter.mpr ⟨ha, hsh⟩))

/-- Witness for C5: selecting accounts 1 and 2 of `dbTwo` with a bet
amount of 2600 per side leaves both accounts short. -/
theorem C5_witness :
    ∃ s, betting_submit cacheTwo dbTwo
        ⟨none, "A", "B", 2, 2, 2600, 2600, 5200, "2025-05-01", "3:30 PM", [1], [2]⟩
        (fun _ => false) 5 = (.errorInsufficient s, cacheTwo, dbTwo) ∧
      (∀ a ∈ [1], ((a, (2600 : ℚ), 1) ∈ s ↔ isShort cacheTwo a 2600 = true)) ∧
      (∀ a ∈ [2], ((a, (2600 : ℚ), 2) ∈ s ↔ isShort cacheTwo a 2600 = true)) :=
  C5_insufficient_lists_all_shortfalls cacheTwo dbTwo
    ⟨none, "A", "B", 2, 2, 2600, 2600, 5200, "2025-05-01", "3:30 PM", [1], [2]⟩
    (fun _ => false) 5 (by decide) (by decide) rfl (by decide)
    (Or.inl ⟨1, by decide, by decide⟩)

/-- Helper: `Except` bind propagates an error scrutinee. -/
theorem except_bind_error {α β γ : Type} (x : Except γ α) (f : α → Except γ β) (e : γ)
    (h : x = .error e) : (x >>= f) = .error e := by
  subst h; rfl

/-- Helper: `Except` bind applies the continuation to an ok scrutinee. -/
theorem except_bind_ok {α β γ : Type} (x : Except γ α) (f : α → Except γ β) (v : α)
    (h : x = .ok v) : (x >>= f) = f v := by
  subst h; rfl

/-- Helper: a successful allocation insert appends exactly its row. -/
theorem insertBetAccount_ok_append (db db' : DB) (row : BetAccount)
    (h : insertBetAccount db row = .ok db') :
    db'.bet_accounts = db.bet_accounts ++ [row] := by
  unfold insertBetAccount at h
  split at h
  · exact absurd h (by simp)
  · split at h
    · exact absurd h (by simp)
    · rw [Except.ok.injEq] at h
      rw [← h]

/-- Helper: an allocation insert whose `(bet_id, account_id)` pair is
already present fails at the primary-key check. -/
theorem insertBetAccount_pk (db : DB) (row : BetAccount)
    (h : hasAlloc db row.bet_id row.account_id = true) :
    insertBetAccount db row = .error .pkViolation := by
  unfold insertBetAccount
  rw [if_pos]
  exact h

/-- Helper: a successful allocation loop keeps every allocation already
present and records one for every inserted account. -/
theorem insertAllocations_hasAlloc (betId team : Nat) (amt : ℚ) :
    ∀ (accs : List Nat) (db db' : DB),
      insertAllocations betId accs team amt db = .ok db' →
      (∀ x, hasAlloc db betId x = true → hasAlloc db' betId x = true) ∧
      (∀ a ∈ accs, hasAlloc db' betId a = true) := by
  intro accs
  induction accs with
  | nil =>
      intro db db' h
      have hdb : db = db' := by
        rw [insertAllocations] at h
        injection h
      subst hdb
      exact ⟨fun x hx => hx, fun a ha => absurd ha (List.not_mem_nil a)⟩
  | cons b rest ih =>
      intro db db' h
      rw [insertAllocations, List.foldlM_cons] at h
      cases hins : insertBetAccount db ⟨betId, b, team, amt, "active"⟩ with
      | error e =>
          rw [except_bind_error _ _ _ hins] at h
          exact absurd h (by simp)
      | ok db1 =>
          rw [except_bind_ok _ _ _ hins] at h
          have h' : insertAllocations betId rest team amt db1 = .ok db' := h
          have happ := insertBetAccount_ok_append db db1 _ hins
          obtain ⟨mono, adds⟩ := ih db1 db' h'
          have mono0 : ∀ x, hasAlloc db betId x = true → hasAlloc db1 betId x = true := by
            intro x hx
            unfold hasAlloc at hx ⊢
            rw [happ, List.any_append, hx, Bool.true_or]
          constructor
          · exact fun x hx => mono x (mono0 x hx)
          · intro a ha
            rcases List.mem_cons.mp ha with rfl | ha'
            · apply mono
              unfold hasAlloc
              rw [happ, List.any_append]
              simp
            · exact adds a ha'

/-- Helper: inserting an allocation list that repeats an account already
allocated for the bet fails. -/
theorem insertAllocations_dup_error (betId team : Nat) (amt : ℚ) :
    ∀ (accs : List Nat) (db : DB) (a : Nat), a ∈ accs → hasAlloc db betId a = true →
      ∃ e, insertAllocations betId accs team amt db = .error e := by
  intro accs
  induction accs with
  | nil => intro db a ha _; exact absurd ha (List.not_mem_nil a)
  | cons b rest ih =>
      intro db a ha hal
      cases hba : hasAlloc db betId b with
      | true =>
          refine ⟨.pkViolation, ?_⟩
          rw [insertAllocations, List.foldlM_cons,
              except_bind_error _ _ _ (insertBetAccount_pk db ⟨betId, b, team, amt, "active"⟩ hba)]
      | false =>
          cases hins : insertBetAccount db ⟨betId, b, team, amt, "active"⟩ with
          | error e =>
              refine ⟨e, ?_⟩
              rw [insertAllocations, List.foldlM_cons, except_bind_error _ _ _ hins]
          | ok db1 =>
              have hab : a ≠ b := by
                intro hEq
                rw [hEq] at hal
                simp [hal] at hba
              have ha' : a ∈ rest := by
                rcases List.mem_cons.mp ha with rfl | h'
                · exact absurd rfl hab
                · exact h'
              have hal1 : hasAlloc db1 betId a = true := by
                have happ := insertBetAccount_ok_append db db1 _ hins
                unfold hasAlloc at hal ⊢
                rw [happ, List.any_append, hal, Bool.true_or]
              obtain ⟨e, he⟩ := ih db1 a ha' hal1
              refine ⟨e, ?_⟩
              rw [insertAllocations, List.foldlM_cons, except_bind_ok _ _ _ hins]
              exact he

/-- Helper: a bet request with an account selected on both sides cannot
commit: `create_bet` fails, at the latest when the duplicate allocation
violates the `(bet_id, account_id)` primary key, and the transaction is
rolled back. -/
theorem create_bet_dup_error (db : DB) (bd : BetData)
    (hdup : ∃ a, a ∈ bd.team1_accounts ∧ a ∈ bd.team2_accounts) :
    ∃ e, create_bet db bd = .error e := by
  obtain ⟨a, ha1, ha2⟩ := hdup
  unfold create_bet
  split
  · exact ⟨_, rfl⟩
  · rename_i db1 matchId heq
    dsimp only
    split
    · exact ⟨_, rfl⟩
    · rename_i db3 hfst
      have hal : hasAlloc db3 db1.next_bet_id a = true :=
        (insertAllocations_hasAlloc db1.next_bet_id 1 bd.bet_amount1
          bd.team1_accounts _ db3 hfst).2 a ha1
      obtain ⟨e, he⟩ := insertAllocations_dup_error db1.next_bet_id 2 bd.bet_amount2
        bd.team2_accounts db3 a ha2 hal
      rw [he]
      exact ⟨e, rfl⟩

/-- C6 counterexample: submitting `bdDup` — account 1 selected on both
teams, both balances sufficient — fails with the storage primary-key
violation surfaced through the generic error path, not with any
`AccountOnBothSides` validation error (no such error exists in the
code); the store and cache are unchanged. -/
theorem C6_counterexample :
    betting_submit cacheTwo dbTwo bdDup (fun _ => false) 5 =
      (.errorPlacingBet (.sql .pkViolation), cacheTwo, dbTwo) := by decide

/-- C6 amended: a submission selecting the same account on both sides
(with otherwise valid selections, all accounts present and sufficient
balances) always fails — the duplicate allocation violates the
`(bet_id, account_id)` primary key inside `create_bet`'s transaction,
which rolls back — and performs zero writes: the store and cache are
returned unchanged.  The failure surfaces as a storage error through the
handler's generic exception path, not as a dedicated
`AccountOnBothSides` validation error; the form merely disables
selecting a team-1 account for team 2. -/
theorem C6_amended_both_sides_storage_error
    (cache : List Account) (db : DB) (bd : BetData) (fault : Nat → Bool) (now : Nat)
    (h1 : bd.team1_accounts ≠ []) (h2 : bd.team2_accounts ≠ [])
    (hlen : bd.team1_accounts.length = bd.team2_accounts.length)
    (hpres : ∀ a ∈ bd.team1_accounts ++ bd.team2_accounts,
        (cache.find? (fun r => r.account_id == a)).isSome = true)
    (hsuff1 : ∀ a ∈ bd.team1_accounts, isShort cache a bd.bet_amount1 = false)
    (hsuff2 : ∀ a ∈ bd.team2_accounts, isShort cache a bd.bet_amount2 = false)
    (hdup : ∃ a, a ∈ bd.team1_accounts ∧ a ∈ bd.team2_accounts) :
    ∃ e, betting_submit cache db bd fault now = (.errorPlacingBet (.sql e), cache, db) := by
  have hp1 : ∀ a ∈ bd.team1_accounts,
      (cache.find? (fun r => r.account_id == a)).isSome = true :=
    fun a ha => hpres a (List.mem_append_left _ ha)
  have hp2 : ∀ a ∈ bd.team2_accounts,
      (cache.find? (fun r => r.account_id == a)).isSome = true :=
    fun a ha => hpres a (List.mem_append_right _ ha)
  have he1 : bd.team1_accounts.isEmpty = false := by simp [h1]
  have he2 : bd.team2_accounts.isEmpty = false := by simp [h2]
  have hbne : (bd.team1_accounts.length != bd.team2_accounts.length) = false := by
    simp [hlen]
  have hf1 : bd.team1_accounts.filter (fun a => isShort cache a bd.bet_amount1) = [] :=
    List.filter_eq_nil_iff.mpr (fun a ha => by simp [hsuff1 a ha])
  have hf2 : bd.team2_accounts.filter (fun a => isShort cache a bd.bet_amount2) = [] :=
    List.filter_eq_nil_iff.mpr (fun a ha => by simp [hsuff2 a ha])
  obtain ⟨e, he⟩ := create_bet_dup_error db bd hdup
  refine ⟨e, ?_⟩
  unfold betting_submit
  rw [he1, he2, hbne,
      collectShortfalls_ok cache bd.team1_accounts bd.bet_amount1 1 hp1,
      collectShortfalls_ok cache bd.team2_accounts bd.bet_amount2 2 hp2,
      hf1, hf2, he]
  simp

/-- Witness for C6 amended on the concrete duplicate request `bdDup`. -/
theorem C6_amended_witness :
    ∃ e, betting_submit cacheTwo dbTwo bdDup (fun _ => false) 5 =
      (.errorPlacingBet (.sql e), cacheTwo, dbTwo) :=
  C6_amended_both_sides_storage_error cacheTwo dbTwo bdDup (fun _ => false) 5
    (by decide) (by decide) rfl (by decide) (by decide) (by decide)
    ⟨1, by decide, by decide⟩

/-- C1 counterexample: on `dbTwo`, submitting `bdTwo` (account 1 on
team 1, account 2 on team 2, 1050 per side) while the `save_account`
commit for account 2's debit fails leaves the store partially updated:
the handler reports the failure, yet the bet row and both allocation
rows are committed and account 1 is already debited to 950 while
account 2 still holds 2000 — the operation is not all-or-nothing. -/
theorem C1_counterexample :
    ((betting_submit cacheTwo dbTwo bdTwo (fun a => a == 2) 5).1 =
        .errorPlacingBet .saveFailed) ∧
    ((betting_submit cacheTwo dbTwo bdTwo (fun a => a == 2) 5).2.2.bets.map
        (fun b => (b.bet_id, b.status)) = [(1, "active")]) ∧
    ((betting_submit cacheTwo dbTwo bdTwo (fun a => a == 2) 5).2.2.bet_accounts.map
        (fun r => (r.bet_id, r.account_id, r.team_number, r.bet_amount)) =
      [(1, 1, 1, (1050 : ℚ)), (1, 2, 2, 1050)]) ∧
    balanceOf (betting_submit cacheTwo dbTwo bdTwo (fun a => a == 2) 5).2.2 1 = some 950 ∧
    balanceOf (betting_submit cacheTwo dbTwo bdTwo (fun a => a == 2) 5).2.2 2 = some 2000 := by
  norm_num [betting_submit, collectShortfalls, create_bet, insertAllocations, insertBetAccount,
    debitAccounts, update_account_balance, save_account, get_accounts, balanceOf,
    cacheTwo, dbTwo, bdTwo, accTwo1, accTwo2, List.find?, List.foldlM, bind, Except.bind,
    List.filter, isShort]
  decide

/-- Helper: destructing an equality of handler result triples. -/
theorem submit_tuple_eq {m1 m2 : SubmitMsg} {c1 c2 : List Account} {d1 d2 : DB}
    (h : (m1, c1, d1) = (m2, c2, d2)) : c2 = c1 ∧ d2 = d1 := by
  injection h with hm hrest
  injection hrest with hc hd
  exact ⟨hc.symm, hd.symm⟩

/-- Helper: `update_account_balance` only ever raises the missing
account, the overdraw, or the injected commit failure — never a
storage-transaction (`sql`) error. -/
theorem update_account_balance_error_kind (cache : List Account) (db : DB) (accId : Nat)
    (amount : ℚ) (operation : String) (fault : Bool) (now : Nat) (e : HandlerError)
    (h : update_account_balance cache db accId amount operation fault now = .error e) :
    e = .accountMissing ∨ e = .insufficientBalance ∨ e = .saveFailed := by
  unfold update_account_balance at h
  split at h
  · exact Or.inl (by injection h with h1; exact h1.symm)
  · split at h
    · split at h
      · exact Or.inr (Or.inr (by injection h with h1; exact h1.symm))
      · exact absurd h (by simp)
    · split at h
      · exact Or.inr (Or.inl (by injection h with h1; exact h1.symm))
      · split at h
        · exact Or.inr (Or.inr (by injection h with h1; exact h1.symm))
        · exact absurd h (by simp)

/-- Helper: the debit loop's failures all come from
`update_account_balance`, hence are never `sql` errors. -/
theorem debitAccounts_error_kind :
    ∀ (accs : List Nat) (cache : List Account) (db : DB) (amt : ℚ) (fault : Nat → Bool)
      (now : Nat) (c : List Account) (d : DB) (e : HandlerError),
      debitAccounts cache db accs amt fault now = (c, d, some e) →
      e = .accountMissing ∨ e = .insufficientBalance ∨ e = .saveFailed := by
  intro accs
  induction accs with
  | nil =>
      intro cache db amt fault now c d e h
      simp only [debitAccounts] at h
      exact absurd h (by simp)
  | cons a rest ih =>
      intro cache db amt fault now c d e h
      simp only [debitAccounts] at h
      cases hu : update_account_balance cache db a amt "subtract" (fault a) now with
      | error e1 =>
          rw [hu] at h
          have he1 : e1 = e := by
            have h3 := congrArg (fun t => t.2.2) h
            simpa using h3
          rw [← he1]
          exact update_account_balance_error_kind _ _ _ _ _ _ _ _ hu
      | ok p =>
          obtain ⟨c1, d1⟩ := p
          rw [hu] at h
          exact ih c1 d1 amt fault now c d e h

/-- C1 amended: every failure detected before or inside `create_bet`'s
transaction — the selection checks, the balance validation, a missing
cached account during validation, and any storage error inside
`create_bet` (which rolls back) — leaves both the store and the session
cache exactly as they were.  The per-account debits, however, run after
that transaction has committed, each as its own separate commit, so a
failure in the debit phase (the non-`sql` handler errors) can leave the
bet rows committed and earlier debits applied, as `C1_counterexample`
exhibits. -/
theorem C1_amended_pre_commit_failures_are_clean
    (cache : List Account) (db : DB) (bd : BetData) (fault : Nat → Bool) (now : Nat)
    (msg : SubmitMsg) (c' : List Account) (d' : DB)
    (h : betting_submit cache db bd fault now = (msg, c', d'))
    (hpre : preCommitMsg msg) :
    c' = cache ∧ d' = db := by
  unfold betting_submit at h
  split at h
  · exact submit_tuple_eq h
  · split at h
    · exact submit_tuple_eq h
    · split at h
      · exact submit_tuple_eq h
      · split at h
        · exact submit_tuple_eq h
        · split at h
          · exact submit_tuple_eq h
          · split at h
            · exact submit_tuple_eq h
            · dsimp only at h
              split at h
              · exact submit_tuple_eq h
              · split at h
                · exact submit_tuple_eq h
                · split at h
                  · rename_i c1 d1 e heq
                    injection h with hm hrest
                    rw [← hm] at hpre
                    rcases debitAccounts_error_kind _ _ _ _ _ _ _ _ _ heq
                      with rfl | rfl | rfl
                    · exact hpre.elim
                    · exact hpre.elim
                    · exact hpre.elim
                  · split at h
                    · rename_i c2 d2 e heq
                      injection h with hm hrest
                      rw [← hm] at hpre
                      rcases debitAccounts_error_kind _ _ _ _ _ _ _ _ _ heq
                        with rfl | rfl | rfl
                      · exact hpre.elim
                      · exact hpre.elim
                      · exact hpre.elim
                    · injection h with hm hrest
                      rw [← hm] at hpre
                      exact hpre.elim

/-- Witness for C1 amended: an empty selection is rejected with the
first validation message and both states returned unchanged. -/
theorem C1_amended_witness : cacheTwo = cacheTwo ∧ dbTwo = dbTwo :=
  C1_amended_pre_commit_failures_are_clean cacheTwo dbTwo bdEmpty (fun _ => false) 0
    .errorBothTeams cacheTwo dbTwo (by decide) trivial

/-- Witness for C10 on `dbTwo`'s account 1 at timestamp 9. -/
theorem C10_witness :
    (∀ a ∈ (save_account dbTwo 1 "Account 1" 500 "" 9).accounts,
        a.account_id = 1 → a.is_active = true ∧ a.created_at = 9) ∧
    (∀ cache amount operation fault c' d',
        update_account_balance cache dbTwo 1 amount operation fault 9 = .ok (c', d') →
        ∀ a ∈ d'.accounts, a.account_id = 1 →
          a.is_active = true ∧ a.created_at = 9) :=
  C10_save_account_resets_defaults dbTwo 1 "Account 1" "" 500 9
    ⟨accTwo1, by decide, rfl⟩

end StakeTracker
